import Mathlib

/-!
Attendance tracker backend (`Backend/server.js`).

A shallow embedding of the five Express handlers of `Backend/server.js`
(`/signup`, `/login`, `/mark-attendance`, `/users`, `/attendances/:employeeId`)
over an explicit store, followed by the properties proved about them.

Conventions of the embedding.
* The MongoDB collections are lists in insertion order; `findOne` returns the first match.
* Instants are integer milliseconds since the epoch (the time value of a JS `Date`).
* Local time is UTC plus a fixed offset `Ext.tzOffset` (no daylight-saving change).
* bcrypt and jsonwebtoken are external: they are the fields of `Ext`.
* A thrown exception is the `catch` branch of the handler: status 500, `Server error`.
* The store itself never fails.
-/

namespace ATD

/-- Identity `_id` of a stored document. -/
abbrev ObjectId := Nat

/-- Document of the `User` collection (`userSchema`, lines 28-33). -/
structure User where
  _id : ObjectId
  employeeId : String
  name : String
  password : String
  role : String
deriving DecidableEq, Repr

/-- Document of the `Attendance` collection (`attendanceSchema`, lines 38-43). -/
structure Attendance where
  _id : ObjectId
  userId : ObjectId
  name : String
  employeeId : String
  date : Int
deriving DecidableEq, Repr

/-- The database: both collections, and the source of fresh `_id`s. -/
structure Store where
  users : List User
  attendances : List Attendance
  nextId : ObjectId
deriving DecidableEq, Repr

/-- The store before any request. -/
def Store.empty : Store := ⟨[], [], 0⟩

/-- Payload of a session token: `{ user: { id, role } }`. -/
structure Payload where
  id : ObjectId
  role : String
deriving DecidableEq, Repr

/-- The external collaborators of the handlers.
`hash` is `bcrypt.hash(password, salt)`, whose result is never the empty string;
`compare` is `bcrypt.compare(password, hash)`;
`sign p now` is `jwt.sign(p, jwtSecret, { expiresIn: '1h' })` issued at `now`;
`verify token now` is `jwt.verify(token, jwtSecret)` at `now`, `none` when it throws. -/
structure Ext where
  tzOffset : Int
  hash : String → String → String
  hash_ne : ∀ p salt, hash p salt ≠ ""
  compare : String → String → Bool
  sign : Payload → Int → String
  verify : String → Int → Option Payload

/-- JSON body of a response. -/
inductive Json where
  | msg (msg : String)
  | tokenMsg (token msg : String)
  | tokenMsgRole (token msg role : String)
  | users (users : List User)
  | records (records : List Attendance)
deriving DecidableEq, Repr

/-- What a handler answers: HTTP status and JSON body (`res.json` alone is status 200). -/
structure Response where
  status : Nat
  body : Json
deriving DecidableEq, Repr

/-- The `catch` branch of `/signup`, `/login`, `/mark-attendance` and `/users`. -/
def serverError : Response := ⟨500, .msg "Server error"⟩

/-- Mongoose `required: true` on a String path: the value is a non-empty string. -/
def required (v : Option String) : Bool :=
  match v with
  | some str => str != ""
  | none => false

/-- The query `User.findOne({ employeeId })`; an absent value matches no stored user,
every stored user having an `employeeId`. -/
def User.findOne (s : Store) (employeeId : Option String) : Option User :=
  match employeeId with
  | none => none
  | some e => s.users.find? (fun u => u.employeeId == e)

/-- The query `User.findById(id)`. -/
def User.findById (s : Store) (id : ObjectId) : Option User :=
  s.users.find? (fun u => u._id == id)

/-- The query `User.find({ _id })`. -/
def User.find (s : Store) (id : ObjectId) : List User :=
  s.users.filter (fun u => u._id == id)

/-- The unsaved document `new User({ employeeId, name, password, role })`. -/
structure UserDoc where
  _id : ObjectId
  employeeId : Option String
  name : Option String
  password : Option String
  role : String

/-- The call `user.save()`: the schema's `required` paths are validated, the unique index
on `employeeId` is enforced, then the document is inserted. `none` when it throws. -/
def UserDoc.save (s : Store) (d : UserDoc) : Option (Store × User) :=
  match d.employeeId, d.name, d.password with
  | some e, some n, some p =>
    if required (some e) && required (some n) && required (some p)
        && !(s.users.any (fun u => u.employeeId == e)) then
      let user : User := ⟨d._id, e, n, p, d.role⟩
      some (⟨s.users ++ [user], s.attendances, s.nextId + 1⟩, user)
    else none
  | _, _, _ => none

/-- The role `/signup` assigns (line 64). -/
def signupRole (employeeId : Option String) : String :=
  if employeeId = some "admin1" then "admin" else "user"

/-- Handler `app.post('/signup')` (lines 55-85). `salt` is the result of
`bcrypt.genSalt(10)`, `now` the instant the token is signed. -/
def signup (x : Ext) (s : Store) (employeeId name password : Option String)
    (salt : String) (now : Int) : Store × Response :=
  match User.findOne s employeeId with
  | some _ => (s, ⟨400, .msg "User already exists"⟩)
  | none =>
    let role := signupRole employeeId
    let user : UserDoc := ⟨s.nextId, employeeId, name, password, role⟩
    match password with
    | none => (s, serverError)
    | some p =>
      let user : UserDoc := ⟨user._id, user.employeeId, user.name, some (x.hash p salt), user.role⟩
      match UserDoc.save s user with
      | none => (s, serverError)
      | some (s', saved) =>
        let payload : Payload := ⟨saved._id, role⟩
        (s', ⟨200, .tokenMsg (x.sign payload now) "Account created successfully!"⟩)

/-- Handler `app.post('/login')` (lines 88-110). -/
def login (x : Ext) (s : Store) (employeeId password : Option String) (now : Int) :
    Store × Response :=
  match User.findOne s employeeId with
  | none => (s, ⟨400, .msg "Invalid Credentials"⟩)
  | some user =>
    match password with
    | none => (s, serverError)
    | some p =>
      if x.compare p user.password then
        let payload : Payload := ⟨user._id, user.role⟩
        (s, ⟨200, .tokenMsgRole (x.sign payload now) "Login successful!" user.role⟩)
      else (s, ⟨400, .msg "Invalid Credentials"⟩)

/-- Milliseconds in a day of 24 hours. -/
def msPerDay : Int := 86400000

/-- Local midnight starting the local calendar day of the instant `t`. -/
def localMidnight (x : Ext) (t : Int) : Int :=
  t - (t + x.tzOffset) % msPerDay

/-- The method `Date.prototype.setHours(h, m, sec, ms)` on a date whose time value is `d`:
the new time value (which the date object keeps, and which the call returns). -/
def setHours (x : Ext) (d : Int) (h m sec ms : Int) : Int :=
  localMidnight x d + ((h * 60 + m) * 60 + sec) * 1000 + ms

/-- The bounds `($gte, $lt)` of the `date` filter of lines 130-136, `now` being the time
value of `new Date()`. The second `setHours` acts on the object the first one changed. -/
def todayWindow (x : Ext) (now : Int) : Int × Int :=
  let today := now
  let gte := setHours x today 0 0 0 0
  let today := gte
  let lt := setHours x today 23 59 59 999
  (gte, lt)

/-- The filter `{ userId, date: { $gte, $lt } }` of lines 131-137 on one record. -/
def matchesToday (w : Int × Int) (userId : ObjectId) (a : Attendance) : Bool :=
  a.userId == userId && decide (w.1 ≤ a.date) && decide (a.date < w.2)

/-- First part of `app.post('/mark-attendance')` (lines 113-141): the answer when the
request ends here, or the user whose attendance is to be recorded. -/
def markAttendanceCheck (x : Ext) (s : Store) (userId : Option String) (now : Int) :
    Except Response User :=
  if userId = none ∨ userId = some "" then
    .error ⟨400, .msg "User ID is required"⟩
  else
    match User.findOne s userId with
    | none => .error ⟨404, .msg "User not found"⟩
    | some user =>
      match s.attendances.find? (matchesToday (todayWindow x now) user._id) with
      | some _ => .error ⟨400, .msg "Attendance already marked for today"⟩
      | none => .ok user

/-- Second part of `app.post('/mark-attendance')` (lines 144-151): the record is built, its
`date` defaulting to `Date.now()` at that instant, validated and inserted. -/
def markAttendanceSave (s : Store) (user : User) (dateNow : Int) : Store × Response :=
  let attendance : Attendance := ⟨s.nextId, user._id, user.name, user.employeeId, dateNow⟩
  if required (some attendance.name) && required (some attendance.employeeId) then
    (⟨s.users, s.attendances ++ [attendance], s.nextId + 1⟩,
      ⟨200, .msg "Attendance marked successfully!"⟩)
  else (s, serverError)

/-- Handler `app.post('/mark-attendance')` (lines 112-156). `authorization` is the request's
`Authorization` header, `userId` the body field, `now` the time value of `new Date()` at
line 130 and `dateNow` the value of `Date.now()` when the record is built at line 144. -/
def markAttendance (x : Ext) (s : Store) (authorization : Option String)
    (userId : Option String) (now dateNow : Int) : Store × Response :=
  let _ := authorization
  match markAttendanceCheck x s userId now with
  | .error r => (s, r)
  | .ok user => markAttendanceSave s user dateNow

/-- The pieces of a string between the occurrences of `sep`: `str.split(sep)`. -/
def splitChars (sep : Char) : List Char → List Char → List (List Char)
  | acc, [] => [acc.reverse]
  | acc, c :: cs =>
    if c = sep then acc.reverse :: splitChars sep [] cs
    else splitChars sep (c :: acc) cs

/-- The expression `req.headers.authorization.split(' ')[1]` of line 161; the outer `none`
is the exception of an absent header, the inner one the value `undefined`. -/
def bearerToken (authorization : Option String) : Option (Option String) :=
  match authorization with
  | none => none
  | some h => some (((splitChars ' ' [] h.data).map String.mk)[1]?)

/-- Lines 161-165 of `app.get('/users')`: the caller the token stands for, or the answer
when there is none. -/
def resolve (x : Ext) (s : Store) (authorization : Option String) (now : Int) :
    Except Response User :=
  match bearerToken authorization with
  | none => .error serverError
  | some none => .error serverError
  | some (some token) =>
    match x.verify token now with
    | none => .error serverError
    | some decoded =>
      match User.findById s decoded.id with
      | none => .error ⟨404, .msg "User not found"⟩
      | some currentUser => .ok currentUser

/-- Handler `app.get('/users')` (lines 159-179). -/
def users (x : Ext) (s : Store) (authorization : Option String) (now : Int) :
    Store × Response :=
  match resolve x s authorization now with
  | .error r => (s, r)
  | .ok currentUser =>
    if currentUser.role = "admin" then (s, ⟨200, .users s.users⟩)
    else (s, ⟨200, .users (User.find s currentUser._id)⟩)

/-- Handler `app.get('/attendances/:employeeId')` (lines 183-207). -/
def attendances (s : Store) (authorization : Option String) (employeeId : String) :
    Store × Response :=
  let _ := authorization
  let attendanceRecords := s.attendances.filter (fun a => a.employeeId == employeeId)
  if attendanceRecords.length = 0 then
    (s, ⟨404, .msg "No attendance records found for this employee"⟩)
  else (s, ⟨200, .records attendanceRecords⟩)

/-- A request, with what its handler reads from the environment while it runs
(clock readings, the bcrypt salt). -/
inductive Call where
  | signup (employeeId name password : Option String) (salt : String) (now : Int)
  | login (employeeId password : Option String) (now : Int)
  | markAttendance (authorization userId : Option String) (now dateNow : Int)
  | users (authorization : Option String) (now : Int)
  | attendances (authorization : Option String) (employeeId : String)

/-- One request handled from start to end. -/
def step (x : Ext) (s : Store) : Call → Store × Response
  | .signup employeeId name password salt now => signup x s employeeId name password salt now
  | .login employeeId password now => login x s employeeId password now
  | .markAttendance authorization userId now dateNow =>
    markAttendance x s authorization userId now dateNow
  | .users authorization now => users x s authorization now
  | .attendances authorization employeeId => attendances s authorization employeeId

/-- The store after the requests `cs`, handled one after the other. -/
def run (x : Ext) (s : Store) (cs : List Call) : Store :=
  cs.foldl (fun st c => (step x st c).1) s

/-- The clock readings of a request, in the order its handler takes them. -/
def Call.clock : Call → List Int
  | .signup _ _ _ _ now => [now]
  | .login _ _ now => [now]
  | .markAttendance _ _ now dateNow => [now, dateNow]
  | .users _ now => [now]
  | .attendances _ _ => []

/-- All clock readings of a sequence of requests, in order. -/
def clockReadings (cs : List Call) : List Int :=
  (cs.map Call.clock).flatten

/-- A state the store can be in: the result of a sequence of requests on the empty store,
read off a clock that never goes back. -/
def Reachable (x : Ext) (s : Store) : Prop :=
  ∃ cs : List Call, (clockReadings cs).Pairwise (fun a b => a ≤ b) ∧ run x Store.empty cs = s

/-- The records of user `userId` whose date is on the local calendar day of `t`. -/
def recordsOnDay (x : Ext) (s : Store) (userId : ObjectId) (t : Int) : List Attendance :=
  s.attendances.filter
    (fun a => a.userId == userId && decide (localMidnight x a.date = localMidnight x t))

/-- A `/mark-attendance` request in flight: body field and the two clock readings. -/
structure MarkRequest where
  userId : Option String
  now : Int
  dateNow : Int

/-- How far a `/mark-attendance` request has got: not started, past the existence check
of lines 113-141 with the user found, or answered. -/
inductive Progress where
  | pending
  | checked (user : User)
  | answered (r : Response)
deriving DecidableEq, Repr

/-- The next part of the request `q` runs on the store: the check, then the insert. -/
def advance (x : Ext) (q : MarkRequest) (s : Store) : Progress → Store × Progress
  | .pending =>
    match markAttendanceCheck x s q.userId q.now with
    | .error r => (s, .answered r)
    | .ok user => (s, .checked user)
  | .checked user =>
    let out := markAttendanceSave s user q.dateNow
    (out.1, .answered out.2)
  | .answered r => (s, .answered r)

/-- Two requests in flight on one store. -/
structure InFlight where
  store : Store
  first : Progress
  second : Progress
deriving DecidableEq, Repr

/-- The requests `q1` and `q2` interleaved: each entry of the schedule says which of the
two runs its next part (`true` for the first). -/
def interleave (x : Ext) (q1 q2 : MarkRequest) : List Bool → InFlight → InFlight
  | [], st => st
  | true :: rest, st =>
    let out := advance x q1 st.store st.first
    interleave x q1 q2 rest ⟨out.1, out.2, st.second⟩
  | false :: rest, st =>
    let out := advance x q2 st.store st.second
    interleave x q1 q2 rest ⟨out.1, st.first, out.2⟩

/-- The session token a response carries, if any. -/
def Response.token (r : Response) : Option String :=
  match r.body with
  | .tokenMsg token _ => some token
  | .tokenMsgRole token _ _ => some token
  | _ => none

/-- Collaborators used for concrete runs: local time is UTC, the hash is the salt and the
password behind a fixed tag, a token is the text of its payload. -/
def ext0 : Ext where
  tzOffset := 0
  hash := fun p salt => "$2a$10$" ++ salt ++ p
  hash_ne := fun p salt h =>
    absurd (congrArg String.length h) (by simp; intro h1; exact absurd h1 (by decide))
  compare := fun p h => h == "$2a$10$" ++ "salt" ++ p
  sign := fun p _ => toString p.id ++ "." ++ p.role
  verify := fun t _ =>
    if t = "0.user" then some ⟨0, "user"⟩
    else if t = "1.admin" then some ⟨1, "admin"⟩
    else if t = "7.user" then some ⟨7, "user"⟩
    else none

/-- The store after `e42` and then `admin1` have signed up. -/
def store2 : Store :=
  run ext0 Store.empty
    [.signup (some "e42") (some "Ann") (some "pw") "salt" 0,
     .signup (some "admin1") (some "Bob") (some "root") "salt" 0]

/-- Three requests on the empty store: `e42` signs up, then marks attendance twice, the
first record being built in the last millisecond of day 0 and the second request running
within that same millisecond. -/
def lastMillisecondTrace : List Call :=
  [.signup (some "e42") (some "Ann") (some "pw") "salt" 0,
   .markAttendance none (some "e42") 86399998 86399999,
   .markAttendance none (some "e42") 86399999 86399999]

/-- What the sequential handlers do keep: of two records of one user dated on one local
calendar day, the earlier is dated in the last millisecond of that day and the later at
the same instant. -/
def SameDayOnlyLastMs (x : Ext) (l : List Attendance) : Prop :=
  l.Pairwise fun a b => a.userId = b.userId →
    localMidnight x a.date = localMidnight x b.date →
    a.date = localMidnight x a.date + 86399999 ∧ b.date = a.date

/-! Properties of the handlers. -/

theorem localMidnight_idem (x : Ext) (t : Int) :
    localMidnight x (localMidnight x t) = localMidnight x t := by
  unfold localMidnight msPerDay
  omega

theorem todayWindow_eq (x : Ext) (t : Int) :
    todayWindow x t = (localMidnight x t, localMidnight x t + 86399999) := by
  unfold todayWindow setHours localMidnight msPerDay
  refine Prod.ext ?_ ?_ <;> simp only <;> omega

theorem localMidnight_le (x : Ext) (t : Int) : localMidnight x t ≤ t := by
  unfold localMidnight msPerDay
  omega

theorem lt_localMidnight_add (x : Ext) (t : Int) : t < localMidnight x t + msPerDay := by
  unfold localMidnight msPerDay
  omega

/-- Within the bounds of the day of `t`, an instant has the same local midnight as `t`. -/
theorem localMidnight_eq_of_mem_day (x : Ext) (t d : Int)
    (h1 : localMidnight x t ≤ d) (h2 : d < localMidnight x t + msPerDay) :
    localMidnight x d = localMidnight x t := by
  unfold localMidnight msPerDay at *
  omega

/-- C2, evaluated on the code: at `now = 0` (local time UTC) the instant `86399999`,
which is 23:59:59.999 of the same day and so inside the calendar day window
`[midnight, midnight + 1 day)`, is not matched by the filter of `/mark-attendance`,
whose upper bound is `midnight + 86399999`, exclusive. -/
theorem todayWindow_misses_last_millisecond :
    todayWindow ext0 0 = (0, 86399999) ∧
    localMidnight ext0 0 ≤ 86399999 ∧ 86399999 < localMidnight ext0 0 + msPerDay ∧
    matchesToday (todayWindow ext0 0) 0 ⟨1, 0, "Ann", "e42", 86399999⟩ = false := by
  decide

/-- C1, evaluated on the code: after `lastMillisecondTrace`, whose clock readings never
go back, both `/mark-attendance` requests have succeeded and the store holds two records
of user `0` dated on the same local calendar day. -/
theorem markAttendance_twice_in_last_millisecond :
    (clockReadings lastMillisecondTrace).Pairwise (fun a b => a ≤ b) ∧
    Reachable ext0 (run ext0 Store.empty lastMillisecondTrace) ∧
    (step ext0 (run ext0 Store.empty (lastMillisecondTrace.take 2))
      (.markAttendance none (some "e42") 86399999 86399999)).2
      = ⟨200, .msg "Attendance marked successfully!"⟩ ∧
    recordsOnDay ext0 (run ext0 Store.empty lastMillisecondTrace) 0 86399999
      = [⟨1, 0, "Ann", "e42", 86399999⟩, ⟨2, 0, "Ann", "e42", 86399999⟩] := by
  refine ⟨by decide, ⟨lastMillisecondTrace, by decide, rfl⟩, by decide, by decide⟩

/-- C10, evaluated on the code: two `/mark-attendance` requests of `e42` at 09:00 of the
same day, scheduled check, check, insert, insert, are both answered with success, and the
store then holds two records of that user on that day. -/
theorem markAttendance_race_both_succeed :
    interleave ext0 ⟨some "e42", 32400000, 32400001⟩ ⟨some "e42", 32400000, 32400002⟩
        [true, false, true, false] ⟨store2, .pending, .pending⟩
      = ⟨⟨store2.users,
            [⟨2, 0, "Ann", "e42", 32400001⟩, ⟨3, 0, "Ann", "e42", 32400002⟩], 4⟩,
          .answered ⟨200, .msg "Attendance marked successfully!"⟩,
          .answered ⟨200, .msg "Attendance marked successfully!"⟩⟩ ∧
    localMidnight ext0 32400001 = localMidnight ext0 32400002 := by
  decide

theorem UserDoc.save_some (s s' : Store) (d : UserDoc) (u : User)
    (h : UserDoc.save s d = some (s', u)) :
    ∃ e n p, d.employeeId = some e ∧ d.name = some n ∧ d.password = some p ∧
      e ≠ "" ∧ n ≠ "" ∧ p ≠ "" ∧ (∀ v ∈ s.users, v.employeeId ≠ e) ∧
      u = ⟨d._id, e, n, p, d.role⟩ ∧ s' = ⟨s.users ++ [u], s.attendances, s.nextId + 1⟩ := by
  unfold UserDoc.save at h
  split at h
  · rename_i e n p he hn hp
    split at h
    · rename_i hc
      simp only [required, Bool.and_eq_true, bne_iff_ne, ne_eq, Bool.not_eq_true',
        List.any_eq_false, beq_iff_eq] at hc
      simp only [Option.some.injEq, Prod.mk.injEq] at h
      obtain ⟨hs, hu⟩ := h
      refine ⟨e, n, p, he, hn, hp, hc.1.1.1, hc.1.1.2, hc.1.2, ?_, hu.symm, ?_⟩
      · intro v hv; exact hc.2 v hv
      · rw [← hs, ← hu]
    · simp at h
  · simp at h

theorem signup_ok (x : Ext) (s : Store) (employeeId name password : Option String)
    (salt : String) (now : Int)
    (h : (signup x s employeeId name password salt now).2.status = 200) :
    ∃ e n p, employeeId = some e ∧ name = some n ∧ password = some p ∧
      e ≠ "" ∧ n ≠ "" ∧ (∀ v ∈ s.users, v.employeeId ≠ e) ∧
      signup x s employeeId name password salt now =
        (⟨s.users ++ [⟨s.nextId, e, n, x.hash p salt, signupRole (some e)⟩], s.attendances,
            s.nextId + 1⟩,
          ⟨200, .tokenMsg (x.sign ⟨s.nextId, signupRole (some e)⟩ now)
            "Account created successfully!"⟩) := by
  unfold signup at h ⊢
  split at h
  · simp at h
  · rename_i hfind
    simp only [hfind]
    cases password with
    | none => simp [serverError] at h
    | some p =>
      simp only at h ⊢
      split at h
      · simp [serverError] at h
      · rename_i s' saved hsave
        obtain ⟨e, n, p', he, hn, hp, hene, hnne, -, hall, hu, hs⟩ := UserDoc.save_some _ _ _ _ hsave
        simp only at he hn hp hu hs
        simp only [Option.some.injEq] at hp
        subst he hn hp
        refine ⟨e, n, p, rfl, rfl, rfl, hene, hnne, hall, ?_⟩
        rw [hs, hu]

theorem signup_conflict (x : Ext) (s : Store) (e : String) (name password : Option String)
    (salt : String) (now : Int) (h : ∃ u ∈ s.users, u.employeeId = e) :
    signup x s (some e) name password salt now = (s, ⟨400, .msg "User already exists"⟩) := by
  obtain ⟨u, hu, hue⟩ := h
  unfold signup
  split
  · rfl
  · rename_i hfind
    simp only [User.findOne, List.find?_eq_none, beq_iff_eq] at hfind
    exact absurd hue (hfind u hu)

theorem signup_fresh (x : Ext) (s : Store) (e n p salt : String) (now : Int)
    (he : e ≠ "") (hn : n ≠ "") (hfresh : ∀ u ∈ s.users, u.employeeId ≠ e) :
    signup x s (some e) (some n) (some p) salt now =
      (⟨s.users ++ [⟨s.nextId, e, n, x.hash p salt, signupRole (some e)⟩], s.attendances,
          s.nextId + 1⟩,
        ⟨200, .tokenMsg (x.sign ⟨s.nextId, signupRole (some e)⟩ now)
          "Account created successfully!"⟩) := by
  have hfind : User.findOne s (some e) = none := by
    simp only [User.findOne, List.find?_eq_none, beq_iff_eq]
    exact hfresh
  have hany : (s.users.any fun u => u.employeeId == e) = false := by
    simp only [List.any_eq_false, beq_iff_eq]
    exact hfresh
  simp [signup, hfind, UserDoc.save, required, he, hn, x.hash_ne p salt, hany]

theorem signup_users (x : Ext) (s : Store) (employeeId name password : Option String)
    (salt : String) (now : Int) :
    (signup x s employeeId name password salt now).1 = s ∨
    ∃ e n p, employeeId = some e ∧ (∀ v ∈ s.users, v.employeeId ≠ e) ∧
      (signup x s employeeId name password salt now).1 =
        ⟨s.users ++ [⟨s.nextId, e, n, p, signupRole (some e)⟩], s.attendances, s.nextId + 1⟩ := by
  by_cases h : (signup x s employeeId name password salt now).2.status = 200
  · obtain ⟨e, n, p, he, -, -, -, -, hall, heq⟩ := signup_ok x s employeeId name password salt now h
    exact Or.inr ⟨e, n, x.hash p salt, he, hall, by rw [heq]⟩
  · left
    unfold signup at h ⊢
    split
    · rfl
    · cases password with
      | none => rfl
      | some p =>
        simp only at h ⊢
        split
        · rfl
        · rename_i hfind _ s' saved hsave
          simp only [hfind, hsave] at h
          exact absurd trivial h

theorem signupRole_admin_iff (e : String) : signupRole (some e) = "admin" ↔ e = "admin1" := by
  unfold signupRole
  by_cases h : e = "admin1"
  · simp [h]
  · simp [h]

/-- C5: whenever `/signup` succeeds (status 200) the body carried an `employeeId`, exactly
one user was appended to the store, and the role stored on that user, which is also the
role in the payload of the token in the response, is `admin` if and only if the
`employeeId` is `admin1`, and is `user` otherwise. -/
theorem signup_role_iff_sentinel (x : Ext) (s : Store) (employeeId name password : Option String)
    (salt : String) (now : Int)
    (hok : (signup x s employeeId name password salt now).2.status = 200) :
    ∃ e u, employeeId = some e ∧
      (signup x s employeeId name password salt now).1.users = s.users ++ [u] ∧
      u.employeeId = e ∧
      (u.role = "admin" ↔ e = "admin1") ∧ (e ≠ "admin1" → u.role = "user") ∧
      (signup x s employeeId name password salt now).2.token
        = some (x.sign ⟨u._id, u.role⟩ now) := by
  obtain ⟨e, n, p, he, -, -, -, -, -, heq⟩ := signup_ok x s employeeId name password salt now hok
  refine ⟨e, ⟨s.nextId, e, n, x.hash p salt, signupRole (some e)⟩, he, ?_, rfl,
    signupRole_admin_iff e, ?_, ?_⟩
  · rw [heq]
  · intro hne
    simp [signupRole, hne]
  · rw [heq]
    rfl

theorem signup_role_iff_sentinel_witness :
    (signup ext0 Store.empty (some "admin1") (some "Bob") (some "root") "salt" 0).2.status = 200 ∧
    ∃ e u, some "admin1" = some e ∧
      (signup ext0 Store.empty (some "admin1") (some "Bob") (some "root") "salt" 0).1.users
        = Store.empty.users ++ [u] ∧
      u.employeeId = e ∧
      (u.role = "admin" ↔ e = "admin1") ∧ (e ≠ "admin1" → u.role = "user") ∧
      (signup ext0 Store.empty (some "admin1") (some "Bob") (some "root") "salt" 0).2.token
        = some (ext0.sign ⟨u._id, u.role⟩ 0) :=
  ⟨by decide, signup_role_iff_sentinel ext0 Store.empty (some "admin1") (some "Bob")
    (some "root") "salt" 0 (by decide)⟩

theorem login_store (x : Ext) (s : Store) (employeeId password : Option String) (now : Int) :
    (login x s employeeId password now).1 = s := by
  unfold login
  split
  · rfl
  · cases password with
    | none => rfl
    | some p =>
      simp only
      split <;> rfl

/-- C6: `/login` answers status 400 with `Invalid Credentials` when no user has the given
`employeeId`, and the very same response when the user exists and `bcrypt.compare`
rejects the password; a response carries a token only if the user exists and
`bcrypt.compare` accepted the password; and the store is never changed. -/
theorem login_invalid_credentials (x : Ext) (s : Store) (employeeId password : Option String)
    (now : Int) :
    (User.findOne s employeeId = none →
      login x s employeeId password now = (s, ⟨400, .msg "Invalid Credentials"⟩)) ∧
    (∀ user p, User.findOne s employeeId = some user → password = some p →
      x.compare p user.password = false →
      login x s employeeId password now = (s, ⟨400, .msg "Invalid Credentials"⟩)) ∧
    (∀ token, (login x s employeeId password now).2.token = some token →
      ∃ user p, User.findOne s employeeId = some user ∧ password = some p ∧
        x.compare p user.password = true ∧ token = x.sign ⟨user._id, user.role⟩ now) ∧
    (login x s employeeId password now).1 = s := by
  refine ⟨?_, ?_, ?_, ?_⟩
  · intro h
    simp [login, h]
  · intro user p hu hp hc
    simp [login, hu, hp, hc]
  · intro token h
    unfold login at h
    split at h
    · simp [Response.token] at h
    · rename_i user hu
      cases password with
      | none => simp [Response.token, serverError] at h
      | some p =>
        simp only at h
        split at h
        · rename_i hc
          simp only [Response.token, Option.some.injEq] at h
          exact ⟨user, p, hu, rfl, hc, h.symm⟩
        · simp [Response.token] at h
  · exact login_store x s employeeId password now

theorem login_invalid_credentials_witness :
    login ext0 store2 (some "nobody") (some "pw") 0 = (store2, ⟨400, .msg "Invalid Credentials"⟩) ∧
    login ext0 store2 (some "e42") (some "wrong") 0 = (store2, ⟨400, .msg "Invalid Credentials"⟩) ∧
    (login ext0 store2 (some "e42") (some "pw") 0).2.token = some "0.user" :=
  ⟨(login_invalid_credentials ext0 store2 (some "nobody") (some "pw") 0).1 (by decide),
   (login_invalid_credentials ext0 store2 (some "e42") (some "wrong") 0).2.1
      ⟨0, "e42", "Ann", "$2a$10$saltpw", "user"⟩ "wrong" (by decide) rfl (by decide),
   by decide⟩

theorem filter_id_singleton (l : List User) (u : User)
    (hid : (l.map fun v => v._id).Nodup) (hu : u ∈ l) :
    l.filter (fun v => v._id == u._id) = [u] := by
  induction l with
  | nil => simp at hu
  | cons a l ih =>
    simp only [List.map_cons, List.nodup_cons, List.mem_map, not_exists, not_and] at hid
    rcases List.mem_cons.mp hu with rfl | hmem
    · have hnone : l.filter (fun v => v._id == u._id) = [] := by
        simp only [List.filter_eq_nil_iff, beq_iff_eq]
        intro v hv hveq
        exact hid.1 v hv hveq
      simp [List.filter_cons, hnone]
    · have hne : a._id ≠ u._id := fun h => hid.1 u hmem h.symm
      simp [List.filter_cons, hne, ih hid.2 hmem]

theorem resolve_ok (x : Ext) (s : Store) (authorization : Option String) (now : Int)
    (caller : User) (h : resolve x s authorization now = .ok caller) :
    ∃ token decoded, bearerToken authorization = some (some token) ∧
      x.verify token now = some decoded ∧ User.findById s decoded.id = some caller := by
  unfold resolve at h
  split at h
  · simp at h
  · simp at h
  · rename_i token htok
    split at h
    · simp at h
    · rename_i decoded hdec
      split at h
      · simp at h
      · rename_i currentUser hfind
        simp only [Except.ok.injEq] at h
        subst h
        exact ⟨token, decoded, htok, hdec, hfind⟩

/-- C7: in a store whose users have pairwise different `_id`s, when the token of the
request resolves to the stored user `caller`, `/users` answers status 200 with all users
of the store if the role of `caller` is `admin`, and otherwise with the one-element
sequence holding `caller`. -/
theorem users_admin_all_else_self (x : Ext) (s : Store) (authorization : Option String)
    (now : Int) (caller : User)
    (hid : (s.users.map fun u => u._id).Nodup)
    (hres : resolve x s authorization now = .ok caller) :
    caller ∈ s.users ∧
    (caller.role = "admin" → users x s authorization now = (s, ⟨200, .users s.users⟩)) ∧
    (caller.role ≠ "admin" → users x s authorization now = (s, ⟨200, .users [caller]⟩)) := by
  obtain ⟨token, decoded, -, -, hfind⟩ := resolve_ok x s authorization now caller hres
  have hmem : caller ∈ s.users := List.mem_of_find?_eq_some hfind
  refine ⟨hmem, ?_, ?_⟩
  · intro hrole
    simp [users, hres, hrole]
  · intro hrole
    simp [users, hres, hrole, User.find, filter_id_singleton s.users caller hid hmem]

theorem users_admin_all_else_self_witness :
    (users ext0 store2 (some "Bearer 1.admin") 0 = (store2, ⟨200, .users store2.users⟩)) ∧
    (users ext0 store2 (some "Bearer 0.user") 0
      = (store2, ⟨200, .users [⟨0, "e42", "Ann", "$2a$10$saltpw", "user"⟩]⟩)) :=
  ⟨(users_admin_all_else_self ext0 store2 (some "Bearer 1.admin") 0
      ⟨1, "admin1", "Bob", "$2a$10$saltroot", "admin"⟩ (by decide) rfl).2.1 (by decide),
   (users_admin_all_else_self ext0 store2 (some "Bearer 0.user") 0
      ⟨0, "e42", "Ann", "$2a$10$saltpw", "user"⟩ (by decide) rfl).2.2 (by decide)⟩

/-- C8, as the code has it: when the `Authorization` header is absent, holds no second
space-separated piece, or holds a token that `jwt.verify` rejects, `/users` answers status
500 with `Server error`; when the token verifies but no stored user has the id it names,
`/users` answers status 404 with `User not found`; in all these cases the store is left as
it was and the response lists no users. -/
theorem users_unresolved (x : Ext) (s : Store) (authorization : Option String) (now : Int) :
    (bearerToken authorization = none → users x s authorization now = (s, serverError)) ∧
    (bearerToken authorization = some none → users x s authorization now = (s, serverError)) ∧
    (∀ token, bearerToken authorization = some (some token) → x.verify token now = none →
      users x s authorization now = (s, serverError)) ∧
    (∀ token decoded, bearerToken authorization = some (some token) →
      x.verify token now = some decoded → User.findById s decoded.id = none →
      users x s authorization now = (s, ⟨404, .msg "User not found"⟩)) ∧
    ((∀ caller, resolve x s authorization now ≠ .ok caller) →
      ∀ l, (users x s authorization now).2.body ≠ .users l) := by
  refine ⟨?_, ?_, ?_, ?_, ?_⟩
  · intro h
    simp [users, resolve, h]
  · intro h
    simp [users, resolve, h]
  · intro token h hv
    simp [users, resolve, h, hv]
  · intro token decoded h hv hf
    simp [users, resolve, h, hv, hf]
  · intro hno l
    unfold users
    split
    · rename_i r hr
      unfold resolve at hr
      split at hr
      · simp only [Except.error.injEq] at hr
        subst hr
        simp [serverError]
      · simp only [Except.error.injEq] at hr
        subst hr
        simp [serverError]
      · split at hr
        · simp only [Except.error.injEq] at hr
          subst hr
          simp [serverError]
        · split at hr
          · simp only [Except.error.injEq] at hr
            subst hr
            simp
          · simp at hr
    · rename_i caller hc
      exact absurd hc (hno caller)

theorem users_unresolved_witness :
    users ext0 store2 (some "Bearer") 0 = (store2, serverError) ∧
    users ext0 store2 (some "Bearer forged") 0 = (store2, serverError) :=
  ⟨(users_unresolved ext0 store2 (some "Bearer") 0).2.1 (by decide),
   (users_unresolved ext0 store2 (some "Bearer forged") 0).2.2.1 "forged" (by decide)
      (by decide)⟩

/-- C8 fails as stated: on the store holding `e42` and `admin1`, `/users` without any
`Authorization` header answers status 500 with `Server error`, the response of the
`catch` branch of every handler, and `/users` with a token that verifies for the id `7`,
which no stored user has, answers status 404 with `User not found`, the very response
`/mark-attendance` gives for an unknown user. The two failures are answered differently
and neither is an authorization error (status 401). -/
theorem users_missing_token_is_server_error :
    (users ext0 store2 none 0).2 = ⟨500, .msg "Server error"⟩ ∧
    (users ext0 store2 (some "Bearer 7.user") 0).2 = ⟨404, .msg "User not found"⟩ ∧
    (users ext0 store2 (some "Bearer 7.user") 0).2
      = (markAttendance ext0 store2 none (some "nobody") 0 0).2 ∧
    (users ext0 store2 none 0).2.status ≠ 401 ∧
    (users ext0 store2 (some "Bearer 7.user") 0).2.status ≠ 401 := by
  decide

theorem markAttendanceSave_users (s : Store) (user : User) (dateNow : Int) :
    (markAttendanceSave s user dateNow).1.users = s.users := by
  unfold markAttendanceSave
  simp only
  split <;> rfl

theorem markAttendance_users (x : Ext) (s : Store) (authorization userId : Option String)
    (now dateNow : Int) :
    (markAttendance x s authorization userId now dateNow).1.users = s.users := by
  unfold markAttendance
  split
  · rfl
  · exact markAttendanceSave_users s _ dateNow

theorem users_store (x : Ext) (s : Store) (authorization : Option String) (now : Int) :
    (users x s authorization now).1 = s := by
  unfold users
  split
  · rfl
  · split <;> rfl

theorem attendances_store (s : Store) (authorization : Option String) (employeeId : String) :
    (attendances s authorization employeeId).1 = s := by
  unfold attendances
  simp only
  split <;> rfl

theorem step_employeeId_nodup (x : Ext) (s : Store) (c : Call)
    (h : (s.users.map fun u => u.employeeId).Nodup) :
    ((step x s c).1.users.map fun u => u.employeeId).Nodup := by
  cases c with
  | signup employeeId name password salt now =>
    rcases signup_users x s employeeId name password salt now with hs | ⟨e, n, p, -, hall, hs⟩
    · simp only [step, hs]
      exact h
    · simp only [step, hs, List.map_append, List.map_cons, List.map_nil]
      refine List.Nodup.append h (List.nodup_singleton e) ?_
      intro a ha hb
      simp only [List.mem_singleton] at hb
      subst hb
      obtain ⟨u, hu, hue⟩ := List.mem_map.mp ha
      exact hall u hu hue
  | login employeeId password now =>
    simp only [step, login_store]
    exact h
  | markAttendance authorization userId now dateNow =>
    simp only [step, markAttendance_users]
    exact h
  | users authorization now =>
    simp only [step, users_store]
    exact h
  | attendances authorization employeeId =>
    simp only [step, attendances_store]
    exact h

theorem run_employeeId_nodup (x : Ext) (cs : List Call) (s : Store)
    (h : (s.users.map fun u => u.employeeId).Nodup) :
    ((run x s cs).users.map fun u => u.employeeId).Nodup := by
  induction cs generalizing s with
  | nil => exact h
  | cons c cs ih =>
    simp only [run, List.foldl_cons]
    exact ih _ (step_employeeId_nodup x s c h)

/-- C4: `/signup` with an `employeeId` that no stored user has, a `name` and a `password`,
the `employeeId` and the `name` being present as the schema's `required` understands it
(a non-empty string), succeeds (status 200) and appends exactly one user, carrying that
`employeeId`, to the store; `/signup` with an `employeeId` some stored user has answers
status 400 with `User already exists` and leaves the store as it was; so a second
`/signup` with the `employeeId` of a successful one is answered that way; and in every
reachable state no two stored users share an `employeeId`. -/
theorem signup_employeeId_unique (x : Ext) :
    (∀ (s : Store) (e n p salt : String) (now : Int),
      required (some e) = true → required (some n) = true →
      (∀ u ∈ s.users, u.employeeId ≠ e) →
      ∃ u : User, u.employeeId = e ∧
        signup x s (some e) (some n) (some p) salt now =
          (⟨s.users ++ [u], s.attendances, s.nextId + 1⟩,
            ⟨200, .tokenMsg (x.sign ⟨u._id, u.role⟩ now) "Account created successfully!"⟩)) ∧
    (∀ (s : Store) (e : String) (name password : Option String) (salt : String) (now : Int),
      (∃ u ∈ s.users, u.employeeId = e) →
      signup x s (some e) name password salt now = (s, ⟨400, .msg "User already exists"⟩)) ∧
    (∀ (s : Store) (e : String) (name password name2 password2 : Option String)
      (salt salt2 : String) (now now2 : Int),
      (signup x s (some e) name password salt now).2.status = 200 →
      signup x (signup x s (some e) name password salt now).1 (some e) name2 password2 salt2 now2
        = ((signup x s (some e) name password salt now).1, ⟨400, .msg "User already exists"⟩)) ∧
    (∀ s : Store, Reachable x s → (s.users.map fun u => u.employeeId).Nodup) := by
  refine ⟨?_, ?_, ?_, ?_⟩
  · intro s e n p salt now he hn hfresh
    simp only [required, bne_iff_ne, ne_eq] at he hn
    exact ⟨⟨s.nextId, e, n, x.hash p salt, signupRole (some e)⟩, rfl,
      signup_fresh x s e n p salt now he hn hfresh⟩
  · intro s e name password salt now h
    exact signup_conflict x s e name password salt now h
  · intro s e name password name2 password2 salt salt2 now now2 hok
    apply signup_conflict
    obtain ⟨e', n, p, he, -, -, -, -, -, heq⟩ := signup_ok x s (some e) name password salt now hok
    simp only [Option.some.injEq] at he
    subst he
    rw [heq]
    exact ⟨_, List.mem_append_right _ (List.mem_singleton_self _), rfl⟩
  · rintro s ⟨cs, -, rfl⟩
    exact run_employeeId_nodup x cs Store.empty List.nodup_nil

theorem signup_employeeId_unique_witness :
    (∃ u : User, u.employeeId = "e42" ∧
      signup ext0 Store.empty (some "e42") (some "Ann") (some "pw") "salt" 0 =
        (⟨Store.empty.users ++ [u], Store.empty.attendances, Store.empty.nextId + 1⟩,
          ⟨200, .tokenMsg (ext0.sign ⟨u._id, u.role⟩ 0) "Account created successfully!"⟩)) ∧
    signup ext0 store2 (some "e42") (some "Ann") (some "pw") "salt" 0
      = (store2, ⟨400, .msg "User already exists"⟩) ∧
    (store2.users.map fun u => u.employeeId).Nodup :=
  ⟨(signup_employeeId_unique ext0).1 Store.empty "e42" "Ann" "pw" "salt" 0 (by decide)
      (by decide) (by simp [Store.empty]),
   (signup_employeeId_unique ext0).2.1 store2 "e42" (some "Ann") (some "pw") "salt" 0
      ⟨⟨0, "e42", "Ann", "$2a$10$saltpw", "user"⟩, by decide, rfl⟩,
   (signup_employeeId_unique ext0).2.2.2 store2 ⟨_, by decide, rfl⟩⟩

theorem findOne_some (s : Store) (employeeId : Option String) (user : User)
    (h : User.findOne s employeeId = some user) :
    user ∈ s.users ∧ employeeId = some user.employeeId := by
  unfold User.findOne at h
  cases employeeId with
  | none => simp at h
  | some e =>
    simp only at h
    have h1 := List.find?_some h
    simp only [beq_iff_eq] at h1
    exact ⟨List.mem_of_find?_eq_some h, by rw [h1]⟩

theorem markAttendance_success (x : Ext) (s : Store) (authorization userId : Option String)
    (now dateNow : Int) (user : User)
    (hfind : User.findOne s userId = some user) (hid : user.employeeId ≠ "")
    (hname : user.name ≠ "")
    (hnone : ∀ a ∈ s.attendances, matchesToday (todayWindow x now) user._id a = false) :
    markAttendance x s authorization userId now dateNow =
      (⟨s.users, s.attendances ++ [⟨s.nextId, user._id, user.name, user.employeeId, dateNow⟩],
          s.nextId + 1⟩,
        ⟨200, .msg "Attendance marked successfully!"⟩) := by
  have hu := (findOne_some s userId user hfind).2
  have hno : s.attendances.find? (matchesToday (todayWindow x now) user._id) = none := by
    rw [List.find?_eq_none]
    intro a ha
    simp [hnone a ha]
  have hcheck : markAttendanceCheck x s userId now = .ok user := by
    unfold markAttendanceCheck
    rw [if_neg]
    · simp only [hfind, hno]
    · rw [hu]
      simp [hid]
  simp [markAttendance, hcheck, markAttendanceSave, required, hid, hname]

theorem markAttendance_ok (x : Ext) (s : Store) (authorization userId : Option String)
    (now dateNow : Int)
    (h : (markAttendance x s authorization userId now dateNow).2.status = 200) :
    ∃ user, User.findOne s userId = some user ∧ user.employeeId ≠ "" ∧ user.name ≠ "" ∧
      (∀ a ∈ s.attendances, matchesToday (todayWindow x now) user._id a = false) := by
  unfold markAttendance at h
  simp only at h
  split at h
  · rename_i r hr
    unfold markAttendanceCheck at hr
    split at hr
    · simp only [Except.error.injEq] at hr
      subst hr
      simp at h
    · split at hr
      · simp only [Except.error.injEq] at hr
        subst hr
        simp at h
      · split at hr
        · simp only [Except.error.injEq] at hr
          subst hr
          simp at h
        · simp at hr
  · rename_i user hcheck
    unfold markAttendanceCheck at hcheck
    split at hcheck
    · simp at hcheck
    · split at hcheck
      · simp at hcheck
      · rename_i u hfind
        split at hcheck
        · simp at hcheck
        · rename_i hno
          simp only [Except.ok.injEq] at hcheck
          subst hcheck
          refine ⟨u, hfind, ?_, ?_, ?_⟩
          · intro he
            simp [markAttendanceSave, required, he, serverError] at h
          · intro hn
            simp [markAttendanceSave, required, hn, serverError] at h
          · intro a ha
            rw [List.find?_eq_none] at hno
            simpa using hno a ha

theorem matchesToday_false_of_other_day (x : Ext) (now : Int) (userId : ObjectId)
    (a : Attendance)
    (h : a.userId = userId → localMidnight x a.date ≠ localMidnight x now) :
    matchesToday (todayWindow x now) userId a = false := by
  rw [todayWindow_eq]
  by_contra hm
  simp only [matchesToday, Bool.not_eq_false, Bool.and_eq_true, beq_iff_eq,
    decide_eq_true_eq] at hm
  obtain ⟨⟨hu, hlo⟩, hhi⟩ := hm
  refine h hu (localMidnight_eq_of_mem_day x now a.date hlo ?_)
  unfold msPerDay
  omega

/-- C9: let `user` be the stored user the body's `userId` names. If `/mark-attendance`
for that user succeeds with its record dated `d1`, and a later `/mark-attendance` for the
same user looks for today's record at the instant `t2` of another local calendar day than
`d1`, a day on which no earlier record of the user falls, then that request succeeds too
and the store then holds, after the records it held before, unchanged, two distinct records
of the user, dated `d1` and `d2`, each with the user's `_id`, `name` and `employeeId`. The
claim is the case `t1 = d1`, `t2 = d2` of a request that runs within one instant. -/
theorem markAttendance_two_days (x : Ext) (s : Store) (auth1 auth2 userId : Option String)
    (user : User) (t1 d1 t2 d2 : Int)
    (huser : User.findOne s userId = some user)
    (hfirst : (markAttendance x s auth1 userId t1 d1).2.status = 200)
    (hdays : localMidnight x d1 ≠ localMidnight x t2)
    (hfree : ∀ a ∈ s.attendances, a.userId = user._id →
      localMidnight x a.date ≠ localMidnight x t2) :
    (markAttendance x (markAttendance x s auth1 userId t1 d1).1 auth2 userId t2 d2).2
      = ⟨200, .msg "Attendance marked successfully!"⟩ ∧
    (markAttendance x (markAttendance x s auth1 userId t1 d1).1 auth2 userId t2 d2).1.attendances
      = s.attendances ++ [⟨s.nextId, user._id, user.name, user.employeeId, d1⟩,
          ⟨s.nextId + 1, user._id, user.name, user.employeeId, d2⟩] ∧
    (⟨s.nextId, user._id, user.name, user.employeeId, d1⟩ : Attendance)
      ≠ ⟨s.nextId + 1, user._id, user.name, user.employeeId, d2⟩ ∧
    (markAttendance x (markAttendance x s auth1 userId t1 d1).1 auth2 userId t2 d2).1.users
      = s.users := by
  obtain ⟨u, hu, hid, hname, hnone⟩ := markAttendance_ok x s auth1 userId t1 d1 hfirst
  rw [huser, Option.some.injEq] at hu
  subst hu
  rw [markAttendance_success x s auth1 userId t1 d1 user huser hid hname hnone]
  have hfind2 : User.findOne
      ⟨s.users, s.attendances ++ [⟨s.nextId, user._id, user.name, user.employeeId, d1⟩], s.nextId + 1⟩
      userId = some user := huser
  have hnone2 : ∀ a ∈ s.attendances ++ [⟨s.nextId, user._id, user.name, user.employeeId, d1⟩],
      matchesToday (todayWindow x t2) user._id a = false := by
    intro a ha
    apply matchesToday_false_of_other_day
    intro hau
    rcases List.mem_append.mp ha with h | h
    · exact hfree a h hau
    · rw [List.mem_singleton] at h
      subst h
      exact hdays
  rw [markAttendance_success x _ auth2 userId t2 d2 user hfind2 hid hname hnone2]
  refine ⟨rfl, ?_, ?_, rfl⟩
  · simp
  · intro h
    simp at h

theorem markAttendance_two_days_witness :
    (markAttendance ext0 (markAttendance ext0 store2 none (some "e42") 32400000 32400000).1
        none (some "e42") 118800000 118800000).2
      = ⟨200, .msg "Attendance marked successfully!"⟩ ∧
    (markAttendance ext0 (markAttendance ext0 store2 none (some "e42") 32400000 32400000).1
        none (some "e42") 118800000 118800000).1.attendances
      = store2.attendances ++ [⟨store2.nextId, 0, "Ann", "e42", 32400000⟩,
          ⟨store2.nextId + 1, 0, "Ann", "e42", 118800000⟩] ∧
    (⟨store2.nextId, 0, "Ann", "e42", 32400000⟩ : Attendance)
      ≠ ⟨store2.nextId + 1, 0, "Ann", "e42", 118800000⟩ ∧
    (markAttendance ext0 (markAttendance ext0 store2 none (some "e42") 32400000 32400000).1
        none (some "e42") 118800000 118800000).1.users
      = store2.users :=
  markAttendance_two_days ext0 store2 none none (some "e42")
    ⟨0, "e42", "Ann", "$2a$10$saltpw", "user"⟩ 32400000 32400000 118800000 118800000
    (by decide) (by decide) (by decide) (by decide)

/-- C3 fails as stated: on the store holding `e42` and `admin1`, a `/mark-attendance`
request with no `Authorization` header at all succeeds and creates a record for `e42`, and
a `/attendances/e42` request with no header, so from a caller who is neither an admin nor
`e42`, is answered with that record. -/
theorem markAttendance_without_token_succeeds :
    markAttendance ext0 store2 none (some "e42") 32400000 32400001
      = (⟨store2.users, [⟨2, 0, "Ann", "e42", 32400001⟩], 3⟩,
          ⟨200, .msg "Attendance marked successfully!"⟩) ∧
    attendances (markAttendance ext0 store2 none (some "e42") 32400000 32400001).1 none "e42"
      = (⟨store2.users, [⟨2, 0, "Ann", "e42", 32400001⟩], 3⟩,
          ⟨200, .records [⟨2, 0, "Ann", "e42", 32400001⟩]⟩) := by
  decide

/-- C3, as the code has it: `/mark-attendance` and `/attendances/:employeeId` do not look
at the `Authorization` header. Whatever the header holds, also when it is absent,
`/mark-attendance` records the attendance of the stored user the body's `userId` names
whenever no record of that user matches today's filter, and `/attendances/:employeeId`
answers with all records carrying that `employeeId` whenever there is one; and any two
headers get the same result from both handlers. -/
theorem attendance_handlers_ignore_token (x : Ext) (s : Store) (authorization : Option String) :
    (∀ (userId : Option String) (user : User) (now dateNow : Int),
      User.findOne s userId = some user → user.employeeId ≠ "" → user.name ≠ "" →
      (∀ a ∈ s.attendances, matchesToday (todayWindow x now) user._id a = false) →
      markAttendance x s authorization userId now dateNow =
        (⟨s.users,
            s.attendances ++ [⟨s.nextId, user._id, user.name, user.employeeId, dateNow⟩],
            s.nextId + 1⟩,
          ⟨200, .msg "Attendance marked successfully!"⟩)) ∧
    (∀ employeeId : String, (∃ a ∈ s.attendances, a.employeeId = employeeId) →
      attendances s authorization employeeId =
        (s, ⟨200, .records (s.attendances.filter fun a => a.employeeId == employeeId)⟩)) ∧
    (∀ (other userId : Option String) (now dateNow : Int),
      markAttendance x s authorization userId now dateNow
        = markAttendance x s other userId now dateNow) ∧
    (∀ (other : Option String) (employeeId : String),
      attendances s authorization employeeId = attendances s other employeeId) := by
  refine ⟨?_, ?_, fun _ _ _ _ => rfl, fun _ _ => rfl⟩
  · intro userId user now dateNow hfind hid hname hnone
    exact markAttendance_success x s authorization userId now dateNow user hfind hid hname hnone
  · rintro employeeId ⟨a, ha, hae⟩
    have hne : (s.attendances.filter fun a => a.employeeId == employeeId).length ≠ 0 := by
      intro h0
      have hmem : a ∈ s.attendances.filter fun a => a.employeeId == employeeId :=
        List.mem_filter.mpr ⟨ha, by simp [hae]⟩
      rw [List.length_eq_zero] at h0
      rw [h0] at hmem
      exact absurd hmem (List.not_mem_nil a)
    simp [attendances, hne]

theorem attendance_handlers_ignore_token_witness :
    markAttendance ext0 store2 (some "Bearer forged") (some "e42") 32400000 32400001 =
      (⟨store2.users,
          store2.attendances ++ [⟨store2.nextId, 0, "Ann", "e42", 32400001⟩],
          store2.nextId + 1⟩,
        ⟨200, .msg "Attendance marked successfully!"⟩) :=
  (attendance_handlers_ignore_token ext0 store2 (some "Bearer forged")).1 (some "e42")
    ⟨0, "e42", "Ann", "$2a$10$saltpw", "user"⟩ 32400000 32400001 (by decide) (by decide)
    (by decide) (by decide)

theorem markAttendance_attendances (x : Ext) (s : Store) (authorization userId : Option String)
    (now dateNow : Int) :
    (markAttendance x s authorization userId now dateNow).1.attendances = s.attendances ∨
    ∃ user : User, (∀ a ∈ s.attendances, matchesToday (todayWindow x now) user._id a = false) ∧
      (markAttendance x s authorization userId now dateNow).1.attendances =
        s.attendances ++ [⟨s.nextId, user._id, user.name, user.employeeId, dateNow⟩] := by
  by_cases h : (markAttendance x s authorization userId now dateNow).2.status = 200
  · obtain ⟨user, hfind, hid, hname, hnone⟩ := markAttendance_ok x s authorization userId now dateNow h
    refine Or.inr ⟨user, hnone, ?_⟩
    rw [markAttendance_success x s authorization userId now dateNow user hfind hid hname hnone]
  · left
    unfold markAttendance at h ⊢
    simp only at h ⊢
    split
    · rfl
    · rename_i user hcheck
      simp only [hcheck] at h
      unfold markAttendanceSave at h ⊢
      simp only at h ⊢
      split
      · rename_i hreq
        simp [hreq] at h
      · rfl

theorem step_attendances (x : Ext) (s : Store) (c : Call) :
    (step x s c).1.attendances = s.attendances ∨
    ∃ (authorization userId : Option String) (now dateNow : Int) (user : User),
      c = .markAttendance authorization userId now dateNow ∧
      (∀ a ∈ s.attendances, matchesToday (todayWindow x now) user._id a = false) ∧
      (step x s c).1.attendances =
        s.attendances ++ [⟨s.nextId, user._id, user.name, user.employeeId, dateNow⟩] := by
  cases c with
  | signup employeeId name password salt now =>
    left
    rcases signup_users x s employeeId name password salt now with hs | ⟨e, n, p, -, -, hs⟩
    · simp only [step, hs]
    · simp only [step, hs]
  | login employeeId password now => left; simp only [step, login_store]
  | markAttendance authorization userId now dateNow =>
    rcases markAttendance_attendances x s authorization userId now dateNow with h | ⟨u, hn, h⟩
    · exact Or.inl h
    · exact Or.inr ⟨authorization, userId, now, dateNow, u, rfl, hn, h⟩
  | users authorization now => left; simp only [step, users_store]
  | attendances authorization employeeId => left; simp only [step, attendances_store]

theorem run_sameDayOnlyLastMs (x : Ext) (cs : List Call) (s : Store)
    (hclock : (clockReadings cs).Pairwise fun a b => a ≤ b)
    (hpast : ∀ a ∈ s.attendances, ∀ t ∈ clockReadings cs, a.date ≤ t)
    (hinv : SameDayOnlyLastMs x s.attendances) :
    SameDayOnlyLastMs x (run x s cs).attendances := by
  induction cs generalizing s with
  | nil => exact hinv
  | cons c cs ih =>
    have hcr : clockReadings (c :: cs) = c.clock ++ clockReadings cs := by
      simp [clockReadings]
    rw [hcr, List.pairwise_append] at hclock
    obtain ⟨hc, hcs, hcross⟩ := hclock
    have hpast1 : ∀ a ∈ s.attendances, ∀ t ∈ c.clock, a.date ≤ t := fun a ha t ht =>
      hpast a ha t (by rw [hcr]; exact List.mem_append_left _ ht)
    have hpast2 : ∀ a ∈ s.attendances, ∀ t ∈ clockReadings cs, a.date ≤ t := fun a ha t ht =>
      hpast a ha t (by rw [hcr]; exact List.mem_append_right _ ht)
    simp only [run, List.foldl_cons]
    apply ih _ hcs
    · rcases step_attendances x s c with h | ⟨auth, uid, now, dateNow, u, rfl, -, h⟩
      · rw [h]; exact hpast2
      · rw [h]
        intro a ha t ht
        rcases List.mem_append.mp ha with ha | ha
        · exact hpast2 a ha t ht
        · rw [List.mem_singleton] at ha
          subst ha
          exact hcross dateNow (by simp [Call.clock]) t ht
    · rcases step_attendances x s c with h | ⟨auth, uid, now, dateNow, u, rfl, hnone, h⟩
      · rw [h]; exact hinv
      · rw [h]
        unfold SameDayOnlyLastMs
        rw [List.pairwise_append]
        refine ⟨hinv, List.pairwise_singleton _ _, ?_⟩
        intro a ha b hb hu hday
        rw [List.mem_singleton] at hb
        subst hb
        have h1 : a.date ≤ now := hpast1 a ha now (by simp [Call.clock])
        have h2 : now ≤ dateNow := by
          simp only [Call.clock, List.pairwise_cons, List.mem_singleton, forall_eq] at hc
          exact hc.1
        have hm := hnone a ha
        rw [todayWindow_eq] at hm
        simp only [matchesToday, hu, beq_self_eq_true, Bool.true_and, Bool.and_eq_false_imp,
          decide_eq_true_eq, decide_eq_false_iff_not, not_lt] at hm
        dsimp only at hday ⊢
        unfold localMidnight msPerDay at *
        omega

/-- The one-record-a-day rule as far as the sequential handlers keep it: in every
reachable state, two records of one user dated on one local
calendar day are both dated in the last millisecond of that day. So the sequential
handlers keep at most one record a user and day among the records dated before
23:59:59.999. -/
theorem reachable_sameDayOnlyLastMs (x : Ext) (s : Store) (h : Reachable x s) :
    SameDayOnlyLastMs x s.attendances := by
  obtain ⟨cs, hclock, rfl⟩ := h
  exact run_sameDayOnlyLastMs x cs Store.empty hclock (by simp [Store.empty])
    List.Pairwise.nil
end ATD
